import Mathlib

/-!
Verification development for the real-estate ingestion pipeline
(`process_data.py`): source adapters (`clean_zillow_data`,
`clean_redfin_data`), the validator (`validate_data`) and the loader
(`load_listings`).  Machine-level hashing (`hashlib.md5`) is embedded as a
byte-level MD5 over `Nat` arithmetic mod 2^32; the relational store is a
list of rows and the loader's per-record `INSERT ... ON CONFLICT` is an
explicit upsert.  Numeric cell values are modelled as rationals, null cells
as `Option.none`.
-/

namespace RealEstate

/-! ### MD5 (model of Python `hashlib.md5`), bytes as `Nat < 256`, words mod 2^32 -/

def w32 : Nat := 4294967296

/-- Round constants `K[i] = floor(abs(sin(i+1)) * 2^32)` of MD5. -/
def md5K : List Nat := [3614090360, 3905402710, 606105819, 3250441966,
  4118548399, 1200080426, 2821735955, 4249261313, 1770035416, 2336552879,
  4294925233, 2304563134, 1804603682, 4254626195, 2792965006, 1236535329,
  4129170786, 3225465664, 643717713, 3921069994, 3593408605, 38016083,
  3634488961, 3889429448, 568446438, 3275163606, 4107603335, 1163531501,
  2850285829, 4243563512, 1735328473, 2368359562, 4294588738, 2272392833,
  1839030562, 4259657740, 2763975236, 1272893353, 4139469664, 3200236656,
  681279174, 3936430074, 3572445317, 76029189, 3654602809, 3873151461,
  530742520, 3299628645, 4096336452, 1126891415, 2878612391, 4237533241,
  1700485571, 2399980690, 4293915773, 2240044497, 1873313359, 4264355552,
  2734768916, 1309151649, 4149444226, 3174756917, 718787259, 3951481745]

/-- Per-round left-rotation amounts of MD5. -/
def md5S : List Nat := [7, 12, 17, 22, 7, 12, 17, 22, 7, 12, 17, 22, 7, 12, 17, 22,
  5, 9, 14, 20, 5, 9, 14, 20, 5, 9, 14, 20, 5, 9, 14, 20,
  4, 11, 16, 23, 4, 11, 16, 23, 4, 11, 16, 23, 4, 11, 16, 23,
  6, 10, 15, 21, 6, 10, 15, 21, 6, 10, 15, 21, 6, 10, 15, 21]

/-- Bitwise complement on 32-bit words. -/
def not32 (x : Nat) : Nat := x ^^^ 4294967295

/-- Left rotation of a 32-bit word. -/
def rotl32 (x n : Nat) : Nat := ((x <<< n) % w32) ||| (x >>> (32 - n))

/-- UTF-8 encoding of one character (model of Python `str.encode()`). -/
def utf8EncodeCharBytes (c : Char) : List Nat :=
  let n := c.toNat
  if n < 128 then [n]
  else if n < 2048 then [192 ||| (n >>> 6), 128 ||| (n &&& 63)]
  else if n < 65536 then
    [224 ||| (n >>> 12), 128 ||| ((n >>> 6) &&& 63), 128 ||| (n &&& 63)]
  else
    [240 ||| (n >>> 18), 128 ||| ((n >>> 12) &&& 63),
     128 ||| ((n >>> 6) &&& 63), 128 ||| (n &&& 63)]

/-- Bytes of a string under UTF-8. -/
def strBytes (s : String) : List Nat := (s.data.map utf8EncodeCharBytes).flatten

/-- MD5 padding: append `0x80`, zero bytes to 56 mod 64, then the 8-byte
little-endian bit length. -/
def md5Pad (msg : List Nat) : List Nat :=
  let len := msg.length
  let zeros := (119 - len % 64) % 64
  msg ++ [128] ++ List.replicate zeros 0 ++
    (List.range 8).map (fun i => ((8 * len) >>> (8 * i)) &&& 255)

/-- Split a byte list into 64-byte chunks (fuel-based structural recursion). -/
def chunksAux : Nat → List Nat → List (List Nat)
  | 0, _ => []
  | _ + 1, [] => []
  | fuel + 1, l => l.take 64 :: chunksAux fuel (l.drop 64)

def chunks64 (l : List Nat) : List (List Nat) := chunksAux l.length l

structure MD5State where
  a : Nat
  b : Nat
  c : Nat
  d : Nat
deriving DecidableEq, Repr

def md5Init : MD5State := ⟨1732584193, 4023233417, 2562383102, 271733878⟩

/-- The nonlinear function of round `i`. -/
def md5F (i : Nat) (st : MD5State) : Nat :=
  if i < 16 then (st.b &&& st.c) ||| (not32 st.b &&& st.d)
  else if i < 32 then (st.d &&& st.b) ||| (not32 st.d &&& st.c)
  else if i < 48 then st.b ^^^ st.c ^^^ st.d
  else st.c ^^^ (st.b ||| not32 st.d)

/-- The message-word index used in round `i`. -/
def md5G (i : Nat) : Nat :=
  if i < 16 then i
  else if i < 32 then (5 * i + 1) % 16
  else if i < 48 then (3 * i + 5) % 16
  else (7 * i) % 16

def md5Step (M : Nat → Nat) (st : MD5State) (i : Nat) : MD5State :=
  let f := (md5F i st + st.a + md5K.getD i 0 + M (md5G i)) % w32
  ⟨st.d, (st.b + rotl32 f (md5S.getD i 0)) % w32, st.b, st.c⟩

def md5ProcessChunk (st : MD5State) (chunk : List Nat) : MD5State :=
  let M : Nat → Nat := fun g =>
    chunk.getD (4 * g) 0 + 256 * chunk.getD (4 * g + 1) 0 +
    65536 * chunk.getD (4 * g + 2) 0 + 16777216 * chunk.getD (4 * g + 3) 0
  let e := (List.range 64).foldl (md5Step M) st
  ⟨(st.a + e.a) % w32, (st.b + e.b) % w32, (st.c + e.c) % w32, (st.d + e.d) % w32⟩

/-- Little-endian byte decomposition of a 32-bit word. -/
def wordLEBytes (w : Nat) : List Nat :=
  [w &&& 255, (w >>> 8) &&& 255, (w >>> 16) &&& 255, (w >>> 24) &&& 255]

def md5Final (s : String) : MD5State :=
  (chunks64 (md5Pad (strBytes s))).foldl md5ProcessChunk md5Init

/-- The 16 digest bytes of MD5. -/
def md5DigestBytes (s : String) : List Nat :=
  let e := md5Final s
  wordLEBytes e.a ++ wordLEBytes e.b ++ wordLEBytes e.c ++ wordLEBytes e.d

/-- Lowercase hex character for a value below 16. -/
def hexChar (n : Nat) : Char :=
  if n < 10 then Char.ofNat (48 + n) else Char.ofNat (87 + n)

/-- Two hex characters of one byte. -/
def byteHex (b : Nat) : List Char := [hexChar (b / 16), hexChar (b % 16)]

/-- Characters of `hexdigest()`. -/
def md5hexChars (s : String) : List Char := ((md5DigestBytes s).map byteHex).flatten

/-- Model of Python `hashlib.md5(s.encode()).hexdigest()`. -/
def md5hex (s : String) : String := String.mk (md5hexChars s)

/-- Model of `hashlib.md5(s.encode()).hexdigest()[:16]`, the truncated
identifier used by both adapters. -/
def hexdigest16 (s : String) : String := String.mk ((md5hexChars s).take 16)

/-! ### Dates: `pd.to_datetime` on ISO strings and Python `str(Timestamp)` -/

structure Date where
  year : Nat
  month : Nat
  day : Nat
deriving DecidableEq, Repr

/-- Split a character list on the dash character. -/
def splitDash : List Char → List (List Char)
  | [] => [[]]
  | c :: rest =>
    if c = '-' then [] :: splitDash rest
    else
      match splitDash rest with
      | [] => [[c]]
      | g :: gs => (c :: g) :: gs

def digitsToNat (l : List Char) : Nat := l.foldl (fun a c => 10 * a + (c.toNat - 48)) 0

/-- Model of `pd.to_datetime` on an ISO `YYYY-MM-DD` string (the date-column
names of the wide source and the period values of the tabular source).
Leading zeros are normalized away, so distinct strings can denote the same
date; a string not of this shape fails to parse (pandas raises). -/
def parseDate (s : String) : Option Date :=
  match splitDash s.data with
  | [y, m, d] =>
    if !y.isEmpty && !m.isEmpty && !d.isEmpty && (y ++ m ++ d).all Char.isDigit then
      let M := digitsToNat m
      let D := digitsToNat d
      if 1 ≤ M && M ≤ 12 && 1 ≤ D && D ≤ 31 then some ⟨digitsToNat y, M, D⟩ else none
    else none
  | _ => none

def pad2 (n : Nat) : String := if n < 10 then "0" ++ toString n else toString n

def pad4 (n : Nat) : String :=
  if n < 10 then "000" ++ toString n
  else if n < 100 then "00" ++ toString n
  else if n < 1000 then "0" ++ toString n
  else toString n

/-- Python rendering `str(pd.Timestamp(...))` used inside the f-strings that
feed the identifier hash, e.g. `2020-01-31 00:00:00`. -/
def timestampStr (d : Date) : String :=
  pad4 d.year ++ "-" ++ pad2 d.month ++ "-" ++ pad2 d.day ++ " 00:00:00"

/-- Rendering of a possibly-null datetime inside an f-string: a missing
period is `NaT`. -/
def optTimestampStr : Option Date → String
  | none => "NaT"
  | some d => timestampStr d

/-! ### Canonical records (the rows of the cleaned frames) -/

/-- A row of the cleaned/standardized frame, with the twelve columns
selected by both adapters.  Nullable cells are `Option`; numeric cells are
rationals. -/
structure Listing where
  listing_id : String
  date : Option Date
  region : Option String
  city : Option String
  property_type : Option String
  price : Option ℚ
  tax : Option ℚ
  sale_type : Option String
  ownership : Option String
  bedrooms : Option ℚ
  bathrooms : Option ℚ
  sqft : Option ℚ
deriving DecidableEq, Repr

/-! ### Zillow adapter: `DataCleaner.clean_zillow_data` -/

/-- A raw Zillow row: the id columns plus the cells under the date columns
(in column order).  Cell values are numeric-or-null, as produced by
`pd.read_csv` and `pd.to_numeric(..., errors="coerce")`. -/
structure ZillowRow where
  regionID : String
  regionName : Option String
  stateName : Option String
  prices : List (Option ℚ)
deriving DecidableEq, Repr

/-- Hash input `f"zillow_{RegionID}_{date}"` of the Zillow identity
assignment. -/
def zillowIdString (regionID : String) (d : Date) : String :=
  "zillow_" ++ regionID ++ "_" ++ timestampStr d

/-- The Zillow `listing_id`: truncated MD5 of source kind, natural key and
period. -/
def zillowListingId (regionID : String) (d : Date) : String :=
  hexdigest16 (zillowIdString regionID d)

/-- Parse every date-column name; any failure makes `pd.to_datetime` raise,
which the adapter catches by returning an empty frame. -/
def parseDates : List String → Option (List Date)
  | [] => some []
  | c :: rest =>
    match parseDate c, parseDates rest with
    | some d, some ds => some (d :: ds)
    | _, _ => none

/-- The canonical record the Zillow adapter emits for one entity row and
one date column: hashed identifier, renamed geography columns, the melted
price, and the adapter's default values. -/
def zillowRecord (r : ZillowRow) (d : Date) (p : ℚ) : Listing :=
  { listing_id := zillowListingId r.regionID d
    date := some d
    region := r.stateName
    city := r.regionName
    property_type := some "condo"
    price := some p
    tax := none
    sale_type := some "sale"
    ownership := some "unknown"
    bedrooms := none
    bathrooms := none
    sqft := none }

/-- Model of `DataCleaner.clean_zillow_data`: melt the wide frame to long
form (one row per date column and entity row), parse dates, drop null
prices, assign the hashed `listing_id`, rename `RegionName`/`StateName` to
`city`/`region` and fill the default columns. -/
def clean_zillow_data (dateCols : List String) (rows : List ZillowRow) : List Listing :=
  if rows.isEmpty then []
  else
    match parseDates dateCols with
    | none => []
    | some ds =>
      (List.range ds.length).flatMap fun j =>
        rows.filterMap fun r =>
          match r.prices.getD j none with
          | none => none
          | some p => some (zillowRecord r (ds.getD j ⟨0, 0, 0⟩) p)

/-- The hash-input strings of the records `clean_zillow_data` emits, in
emission order. -/
def zillowIdStrings (dateCols : List String) (rows : List ZillowRow) : List String :=
  if rows.isEmpty then []
  else
    match parseDates dateCols with
    | none => []
    | some ds =>
      (List.range ds.length).flatMap fun j =>
        rows.filterMap fun r =>
          match r.prices.getD j none with
          | none => none
          | some _ => some (zillowIdString r.regionID (ds.getD j ⟨0, 0, 0⟩))

/-! ### Redfin adapter: `DataCleaner.clean_redfin_data` -/

/-- A raw Redfin row (the columns the adapter touches). -/
structure RedfinRow where
  period_end : Option String
  region : Option String
  state_code : Option String
  property_type : Option String
  median_sale_price : Option ℚ
deriving DecidableEq, Repr

/-- Hash input `f"redfin_{region}_{period_end}"` of the Redfin identity
assignment (after `period_end` was parsed). -/
def redfinIdString (region : String) (d : Option Date) : String :=
  "redfin_" ++ region ++ "_" ++ optTimestampStr d

def redfinListingId (region : String) (d : Option Date) : String :=
  hexdigest16 (redfinIdString region d)

/-- F-string rendering of a possibly-null text cell: pandas `NaN` prints as
`nan`. -/
def optCellStr : Option String → String
  | none => "nan"
  | some s => s

/-- Parse one `period_end` cell: a null cell becomes `NaT` (carried as
`none`), an unparseable string makes `pd.to_datetime` raise. -/
def parsePeriodCell : Option String → Option (Option Date)
  | none => some none
  | some s =>
    match parseDate s with
    | some d => some (some d)
    | none => none

/-- Parse the `period_end` column values; any raise empties the adapter's
result. -/
def parsePeriods : List (Option String) → Option (List (Option Date))
  | [] => some []
  | c :: rest =>
    match parsePeriodCell c, parsePeriods rest with
    | some d, some ds => some (d :: ds)
    | _, _ => none

/-- ASCII lowercasing of one character (the fragment of Python `str.lower`
exercised by the source labels). -/
def lowerChar (c : Char) : Char :=
  if 65 ≤ c.toNat ∧ c.toNat ≤ 90 then Char.ofNat (c.toNat + 32) else c

/-- Model of pandas `.str.lower()`. -/
def strLower (s : String) : String := String.mk (s.data.map lowerChar)

/-- Model of the `.str.lower()` + `.replace({...})` normalization of
`property_type`: listed labels are mapped, anything else passes through
lowercased; a null cell stays null. -/
def normCategory : Option String → Option String
  | none => none
  | some s =>
    let l := strLower s
    some
      (if l = "single family residential" then "independent"
       else if l = "condo/co-op" then "condo"
       else if l = "townhouse" then "townhouse"
       else l)

/-- The canonical record the Redfin adapter emits for one raw row with its
parsed period: hashed identifier, renamed columns, normalized category and
the adapter's default values.  `hasCol` models whether a `property_type`
column is present in the source frame. -/
def redfinRecord (hasCol : Bool) (r : RedfinRow) (d : Option Date) : Listing :=
  { listing_id := redfinListingId (optCellStr r.region) d
    date := d
    region := r.state_code
    city := r.region
    property_type := if hasCol then normCategory r.property_type else some "other"
    price := r.median_sale_price
    tax := none
    sale_type := some "sale"
    ownership := some "unknown"
    bedrooms := none
    bathrooms := none
    sqft := none }

/-- Model of `drop_duplicates(subset=["listing_id"])`: keep the first row
with each identifier. -/
def dedupAux : List Listing → List String → List Listing
  | [], _ => []
  | r :: rest, seen =>
    if r.listing_id ∈ seen then dedupAux rest seen
    else r :: dedupAux rest (r.listing_id :: seen)

def dedupById (l : List Listing) : List Listing := dedupAux l []

/-- Model of `DataCleaner.clean_redfin_data`: parse `period_end`, assign the
hashed `listing_id`, rename `period_end`/`region`/`state_code`/
`median_sale_price` to `date`/`city`/`region`/`price`, fill defaults,
normalize `property_type` (constant `other` when the column is absent), and
drop duplicate identifiers.  `hasPropertyTypeCol` models the
`if "property_type" in df_clean.columns` test. -/
def clean_redfin_data (hasPropertyTypeCol : Bool) (rows : List RedfinRow) : List Listing :=
  if rows.isEmpty then []
  else
    match parsePeriods (rows.map (·.period_end)) with
    | none => []
    | some ds =>
      dedupById <| (rows.zip ds).map fun rd => redfinRecord hasPropertyTypeCol rd.1 rd.2

/-- The controlled vocabulary of `category` values named by the spec. -/
def controlledVocabulary : List String :=
  ["independent", "condo", "townhouse", "apartment", "other"]

/-! ### Validator: `DataCleaner.validate_data` -/

def validation_rules_price : ℚ × ℚ := (0, 100000000)
def validation_rules_sqft : ℚ × ℚ := (100, 50000)
def validation_rules_bedrooms : ℚ × ℚ := (0, 20)
def validation_rules_bathrooms : ℚ × ℚ := (0, 15)

/-- The price filter `(price >= min) & (price <= max)`: a null cell (NaN)
compares false on both sides, so the row is dropped. -/
def priceOK (p : Option ℚ) : Bool :=
  match p with
  | none => false
  | some v =>
    decide (validation_rules_price.1 ≤ v) && decide (v ≤ validation_rules_price.2)

/-- The soft-rule update `df.loc[(col < min) | (col > max), col] = None`:
an out-of-range value is nulled, a null cell (NaN) compares false and is
left null. -/
def nullIfOut (bounds : ℚ × ℚ) (v : Option ℚ) : Option ℚ :=
  match v with
  | none => none
  | some x => if x < bounds.1 ∨ bounds.2 < x then none else some x

/-- Model of `DataCleaner.validate_data`: filter by the hard price rule,
then null out-of-range `sqft`, `bedrooms` and `bathrooms` in place. -/
def validate_data (l : List Listing) : List Listing :=
  let l1 := l.filter fun r => priceOK r.price
  let l2 := l1.map fun r => { r with sqft := nullIfOut validation_rules_sqft r.sqft }
  let l3 := l2.map fun r => { r with bedrooms := nullIfOut validation_rules_bedrooms r.bedrooms }
  l3.map fun r => { r with bathrooms := nullIfOut validation_rules_bathrooms r.bathrooms }

/-! ### Loader: `DataLoader.load_listings` over a list-of-rows store -/

/-- Python `int(...)` truncation toward zero of a rational. -/
def pyInt (q : ℚ) : Int := q.num.tdiv q.den

/-- A persisted row of the `listings` table.  `updated_at` models the
timestamp column refreshed by the upsert's `CURRENT_TIMESTAMP`. -/
structure DBRow where
  listing_id : String
  date : Option Date
  region : Option String
  city : Option String
  property_type : Option String
  price : Option ℚ
  tax : Option ℚ
  sale_type : Option String
  ownership : Option String
  bedrooms : Option Int
  bathrooms : Option ℚ
  sqft : Option Int
  updated_at : Nat
deriving DecidableEq, Repr

/-- The bound parameters of the `INSERT` statement, built from a cleaned
row at write time `t` (the `float(...)`/`int(...)` conversions of the
source, with `pd.notna` guards). -/
def toDBRow (r : Listing) (t : Nat) : DBRow :=
  { listing_id := r.listing_id
    date := r.date
    region := r.region
    city := r.city
    property_type := r.property_type
    price := r.price
    tax := r.tax
    sale_type := r.sale_type
    ownership := r.ownership
    bedrooms := r.bedrooms.map pyInt
    bathrooms := r.bathrooms
    sqft := r.sqft.map pyInt
    updated_at := t }

/-- The identifiers present in a store. -/
def storeIds (s : List DBRow) : List String := s.map (·.listing_id)

/-- The conflict action `DO UPDATE SET price = EXCLUDED.price, updated_at =
CURRENT_TIMESTAMP` on one stored row: only `price` and `updated_at` of a row
carrying the incoming identifier change. -/
def setPriceFun (row x : DBRow) : DBRow :=
  if x.listing_id = row.listing_id then
    { x with price := row.price, updated_at := row.updated_at }
  else x

/-- The conflict action applied across the store. -/
def setPrice (s : List DBRow) (row : DBRow) : List DBRow := s.map (setPriceFun row)

/-- One `INSERT ... ON CONFLICT (listing_id) DO UPDATE` statement: insert
the full row when the identifier is new, otherwise update only `price` and
`updated_at`. -/
def upsert (s : List DBRow) (row : DBRow) : List DBRow :=
  if row.listing_id ∈ storeIds s then setPrice s row else s ++ [row]

/-- The outcome of one `load_listings` call: the store after the batch and
the two counters the loader accumulates and logs. -/
structure LoadResult where
  store : List DBRow
  records_loaded : Nat
  records_failed : Nat
deriving DecidableEq, Repr

/-- One iteration of the per-record loop: a record whose write raises
(modelled by the `fails` predicate) only bumps the failure counter and the
loop continues; otherwise the record is upserted in its own transaction and
the loaded counter is bumped. -/
def loadStep (fails : Listing → Bool) (t : Nat) (acc : LoadResult) (r : Listing) : LoadResult :=
  if fails r then { acc with records_failed := acc.records_failed + 1 }
  else
    { store := upsert acc.store (toDBRow r t)
      records_loaded := acc.records_loaded + 1
      records_failed := acc.records_failed }

/-- Model of `DataLoader.load_listings`: early return on an empty frame,
otherwise iterate the batch, isolating each record's write.  `fails` models
which records' writes raise; `t` is the run's write timestamp. -/
def load_listings (fails : Listing → Bool) (t : Nat) (store : List DBRow)
    (batch : List Listing) : LoadResult :=
  if batch.isEmpty then ⟨store, 0, 0⟩
  else batch.foldl (loadStep fails t) ⟨store, 0, 0⟩

/-! ### Derived notions used to state and prove the loader's properties -/

/-- Folding a sequence of upserts into a store. -/
def upsertRows (s : List DBRow) (rows : List DBRow) : List DBRow := rows.foldl upsert s

/-- The records of a batch whose write does not raise. -/
def goodRecords (fails : Listing → Bool) (batch : List Listing) : List Listing :=
  batch.filter fun r => !fails r

/-- The incoming rows of a batch at write time `t`. -/
def toRows (t : Nat) (batch : List Listing) : List DBRow := batch.map (toDBRow · t)

/-- Replaying all conflict actions of a write sequence onto one stored row. -/
def applyWrites (rows : List DBRow) (x : DBRow) : DBRow :=
  rows.foldl (fun y row => setPriceFun row y) x

/-- The last write of a sequence that carries a given identifier. -/
def lastWriteFor (rows : List DBRow) (id : String) : Option DBRow :=
  rows.reverse.find? fun r => r.listing_id = id

/-- Forgetting the `updated_at` timestamp of a row, leaving the twelve data
columns. -/
def eraseTime (x : DBRow) : DBRow := { x with updated_at := 0 }

/-- The data columns of a store, timestamps forgotten. -/
def storeData (s : List DBRow) : List DBRow := s.map eraseTime

/-- The three soft-rule updates of `validate_data` on one record. -/
def soften (r : Listing) : Listing :=
  { r with
    sqft := nullIfOut validation_rules_sqft r.sqft
    bedrooms := nullIfOut validation_rules_bedrooms r.bedrooms
    bathrooms := nullIfOut validation_rules_bathrooms r.bathrooms }

end RealEstate

namespace RealEstate

/-! ### Sanity checks of the MD5 embedding against standard test vectors -/

set_option maxRecDepth 100000 in
example : md5hex "" = "d41d8cd98f00b204e9800998ecf8427e" := by decide

set_option maxRecDepth 100000 in
example : md5hex "abc" = "900150983cd24fb0d6963f7d28e17f72" := by decide

/-! ### Loader engine lemmas -/

lemma load_listings_eq_foldl (fails : Listing → Bool) (t : Nat) (store : List DBRow)
    (batch : List Listing) :
    load_listings fails t store batch = batch.foldl (loadStep fails t) ⟨store, 0, 0⟩ := by
  cases batch <;> simp [load_listings]

lemma foldl_loadStep_spec (fails : Listing → Bool) (t : Nat) :
    ∀ (batch : List Listing) (acc : LoadResult),
      batch.foldl (loadStep fails t) acc =
        ⟨upsertRows acc.store (toRows t (goodRecords fails batch)),
         acc.records_loaded + (goodRecords fails batch).length,
         acc.records_failed + batch.countP (fun r => fails r)⟩ := by
  intro batch
  induction batch with
  | nil => intro acc; simp [goodRecords, toRows, upsertRows]
  | cons r rest ih =>
    intro acc
    rw [List.foldl_cons]
    by_cases h : fails r = true
    · have hstep : loadStep fails t acc r = { acc with records_failed := acc.records_failed + 1 } := by
        unfold loadStep; rw [if_pos h]
      have hg : goodRecords fails (r :: rest) = goodRecords fails rest := by
        simp [goodRecords, List.filter_cons, h]
      have hc : (r :: rest).countP (fun x => fails x) = rest.countP (fun x => fails x) + 1 := by
        simp [List.countP_cons, h]
      rw [hstep, ih, hg, hc]
      simp only [LoadResult.mk.injEq]
      exact ⟨trivial, trivial, by omega⟩
    · have hstep : loadStep fails t acc r =
          { store := upsert acc.store (toDBRow r t)
            records_loaded := acc.records_loaded + 1
            records_failed := acc.records_failed } := by
        unfold loadStep; rw [if_neg h]
      have hg : goodRecords fails (r :: rest) = r :: goodRecords fails rest := by
        simp [goodRecords, List.filter_cons, h]
      have hc : (r :: rest).countP (fun x => fails x) = rest.countP (fun x => fails x) := by
        simp [List.countP_cons, h]
      rw [hstep, ih, hg, hc]
      simp only [LoadResult.mk.injEq]
      refine ⟨?_, ?_, trivial⟩
      · simp [upsertRows, toRows]
      · rw [List.length_cons]; omega

lemma load_listings_spec (fails : Listing → Bool) (t : Nat) (store : List DBRow)
    (batch : List Listing) :
    load_listings fails t store batch =
      ⟨upsertRows store (toRows t (goodRecords fails batch)),
       (goodRecords fails batch).length,
       batch.countP (fun r => fails r)⟩ := by
  rw [load_listings_eq_foldl, foldl_loadStep_spec]
  simp

lemma ids_setPriceFun (row x : DBRow) : (setPriceFun row x).listing_id = x.listing_id := by
  unfold setPriceFun; split <;> rfl

lemma ids_setPrice (s : List DBRow) (row : DBRow) : storeIds (setPrice s row) = storeIds s := by
  simp only [storeIds, setPrice, List.map_map]
  exact List.map_congr_left fun x _ => ids_setPriceFun row x

lemma ids_upsert (s : List DBRow) (row : DBRow) :
    storeIds (upsert s row) =
      if row.listing_id ∈ storeIds s then storeIds s else storeIds s ++ [row.listing_id] := by
  unfold upsert
  by_cases h : row.listing_id ∈ storeIds s
  · rw [if_pos h, if_pos h, ids_setPrice]
  · rw [if_neg h, if_neg h]; simp [storeIds]

lemma mem_ids_upsertRows (id : String) :
    ∀ (rows : List DBRow) (s : List DBRow),
      id ∈ storeIds (upsertRows s rows) ↔
        id ∈ storeIds s ∨ id ∈ rows.map (·.listing_id) := by
  intro rows
  induction rows with
  | nil => simp [upsertRows]
  | cons r rest ih =>
    intro s
    have h1 : upsertRows s (r :: rest) = upsertRows (upsert s r) rest := rfl
    rw [h1, ih]
    rw [ids_upsert]
    by_cases h : r.listing_id ∈ storeIds s
    · simp only [h, if_true, List.map_cons, List.mem_cons]
      constructor
      · rintro (hx | hx)
        · exact Or.inl hx
        · exact Or.inr (Or.inr hx)
      · rintro (hx | rfl | hx)
        · exact Or.inl hx
        · exact Or.inl h
        · exact Or.inr hx
    · simp only [h, if_false, List.mem_append, List.mem_singleton, List.map_cons, List.mem_cons]
      tauto

lemma upsertRows_of_present :
    ∀ (rows : List DBRow) (s : List DBRow),
      (∀ r ∈ rows, r.listing_id ∈ storeIds s) →
      upsertRows s rows = rows.foldl setPrice s := by
  intro rows
  induction rows with
  | nil => intro s _; rfl
  | cons r rest ih =>
    intro s h
    have h1 : upsertRows s (r :: rest) = upsertRows (upsert s r) rest := rfl
    have hr : r.listing_id ∈ storeIds s := h r (List.mem_cons_self r rest)
    have h2 : upsert s r = setPrice s r := by unfold upsert; rw [if_pos hr]
    rw [h1, h2, List.foldl_cons, ih]
    intro r' hr'
    rw [ids_setPrice]
    exact h r' (List.mem_cons_of_mem r hr')

lemma foldl_setPrice_eq_map :
    ∀ (rows : List DBRow) (s : List DBRow),
      rows.foldl setPrice s = s.map (applyWrites rows) := by
  intro rows
  induction rows with
  | nil =>
    intro s
    have : applyWrites [] = fun x => x := rfl
    simp [this]
  | cons r rest ih =>
    intro s
    rw [List.foldl_cons, ih]
    show (s.map (setPriceFun r)).map (applyWrites rest) = s.map (applyWrites (r :: rest))
    rw [List.map_map]
    rfl

end RealEstate

namespace RealEstate

lemma ids_applyWrites : ∀ (rows : List DBRow) (x : DBRow),
    (applyWrites rows x).listing_id = x.listing_id := by
  intro rows
  induction rows with
  | nil => intro x; rfl
  | cons r rest ih =>
    intro x
    have h1 : applyWrites (r :: rest) x = applyWrites rest (setPriceFun r x) := rfl
    rw [h1, ih, ids_setPriceFun]

lemma lastWriteFor_append_singleton (rest : List DBRow) (r : DBRow) (id : String) :
    lastWriteFor (rest ++ [r]) id =
      if r.listing_id = id then some r else lastWriteFor rest id := by
  unfold lastWriteFor
  rw [List.reverse_append]
  simp only [List.reverse_singleton, List.singleton_append, List.find?_cons]
  by_cases h : r.listing_id = id
  · simp [h]
  · simp [h]

lemma lastWriteFor_cons (r : DBRow) (rest : List DBRow) (id : String) :
    lastWriteFor (r :: rest) id =
      match lastWriteFor rest id with
      | some w => some w
      | none => if r.listing_id = id then some r else none := by
  unfold lastWriteFor
  rw [List.reverse_cons, List.find?_append]
  cases h : List.find? (fun x => decide (x.listing_id = id)) rest.reverse
  · by_cases hr : r.listing_id = id <;> simp [List.find?_singleton, hr]
  · rfl

lemma applyWrites_eq : ∀ (rows : List DBRow) (x : DBRow),
    applyWrites rows x =
      match lastWriteFor rows x.listing_id with
      | none => x
      | some w => { x with price := w.price, updated_at := w.updated_at } := by
  intro rows
  induction rows with
  | nil => intro x; rfl
  | cons r rest ih =>
    intro x
    have h1 : applyWrites (r :: rest) x = applyWrites rest (setPriceFun r x) := rfl
    rw [h1, ih, lastWriteFor_cons, ids_setPriceFun]
    cases hl : lastWriteFor rest x.listing_id with
    | some w =>
      simp only []
      unfold setPriceFun
      split <;> rfl
    | none =>
      simp only []
      by_cases h : r.listing_id = x.listing_id
      · rw [if_pos h]
        unfold setPriceFun
        rw [if_pos h.symm]
      · rw [if_neg h]
        unfold setPriceFun
        rw [if_neg (fun hc => h hc.symm)]

lemma mem_upsert (s : List DBRow) (row x : DBRow) (hx : x ∈ upsert s row) :
    (∃ y ∈ s, x = setPriceFun row y) ∨ (x = row ∧ row.listing_id ∉ storeIds s) := by
  unfold upsert at hx
  by_cases h : row.listing_id ∈ storeIds s
  · rw [if_pos h] at hx
    obtain ⟨y, hy, hxy⟩ := List.mem_map.mp hx
    exact Or.inl ⟨y, hy, hxy.symm⟩
  · rw [if_neg h] at hx
    rcases List.mem_append.mp hx with hmem | hmem
    · refine Or.inl ⟨x, hmem, ?_⟩
      unfold setPriceFun
      rw [if_neg]
      intro hc
      exact h (hc ▸ List.mem_map_of_mem (fun z => z.listing_id) hmem)
    · exact Or.inr ⟨List.mem_singleton.mp hmem, h⟩

lemma mem_upsertRows_lastWrite :
    ∀ (rows : List DBRow) (s : List DBRow) (x : DBRow), x ∈ upsertRows s rows →
      ∀ w, lastWriteFor rows x.listing_id = some w →
        x.price = w.price ∧ x.updated_at = w.updated_at := by
  intro rows
  induction rows using List.reverseRecOn with
  | nil =>
    intro s x _ w hw
    simp [lastWriteFor] at hw
  | append_singleton rest r ih =>
    intro s x hx w hw
    rw [upsertRows, List.foldl_append, List.foldl_cons, List.foldl_nil] at hx
    rw [lastWriteFor_append_singleton] at hw
    rcases mem_upsert _ _ _ hx with ⟨y, hy, rfl⟩ | ⟨rfl, hnew⟩
    · by_cases h : y.listing_id = r.listing_id
      · have hid : (setPriceFun r y).listing_id = y.listing_id := ids_setPriceFun r y
        rw [hid, h] at hw
        rw [if_pos rfl] at hw
        cases hw
        unfold setPriceFun
        rw [if_pos h]
        exact ⟨rfl, rfl⟩
      · have hid : (setPriceFun r y).listing_id = y.listing_id := ids_setPriceFun r y
        rw [hid] at hw
        rw [if_neg (fun hc => h hc.symm)] at hw
        have heq : setPriceFun r y = y := by unfold setPriceFun; rw [if_neg h]
        rw [heq]
        exact ih s y hy w hw
    · rw [if_pos rfl] at hw
      cases hw
      exact ⟨rfl, rfl⟩

lemma map_self_of_fixed {α : Type} (f : α → α) :
    ∀ (l : List α), (∀ x ∈ l, f x = x) → l.map f = l := by
  intro l
  induction l with
  | nil => intro _; rfl
  | cons a rest ih =>
    intro h
    rw [List.map_cons, h a (List.mem_cons_self a rest), ih fun x hx => h x (List.mem_cons_of_mem a hx)]

lemma upsertRows_idem (s : List DBRow) (rows : List DBRow) :
    upsertRows (upsertRows s rows) rows = upsertRows s rows := by
  have hpres : ∀ r ∈ rows, r.listing_id ∈ storeIds (upsertRows s rows) := fun r hr =>
    (mem_ids_upsertRows _ rows s).mpr (Or.inr (List.mem_map_of_mem (fun z => z.listing_id) hr))
  rw [upsertRows_of_present rows _ hpres, foldl_setPrice_eq_map]
  apply map_self_of_fixed
  intro x hx
  rw [applyWrites_eq]
  cases hl : lastWriteFor rows x.listing_id with
  | none => rfl
  | some w =>
    obtain ⟨h1, h2⟩ := mem_upsertRows_lastWrite rows s x hx w hl
    show ({ x with price := w.price, updated_at := w.updated_at } : DBRow) = x
    rw [← h1, ← h2]

lemma nodup_ids_upsert (s : List DBRow) (row : DBRow) (h : (storeIds s).Nodup) :
    (storeIds (upsert s row)).Nodup := by
  rw [ids_upsert]
  by_cases hp : row.listing_id ∈ storeIds s
  · rw [if_pos hp]; exact h
  · rw [if_neg hp]; simp [List.nodup_append, h, hp]

lemma nodup_ids_upsertRows :
    ∀ (rows : List DBRow) (s : List DBRow), (storeIds s).Nodup →
      (storeIds (upsertRows s rows)).Nodup := by
  intro rows
  induction rows with
  | nil => intro s h; exact h
  | cons r rest ih =>
    intro s h
    exact ih (upsert s r) (nodup_ids_upsert s r h)

lemma eraseTime_setPriceFun (row x : DBRow) :
    eraseTime (setPriceFun row x) = setPriceFun (eraseTime row) (eraseTime x) := by
  unfold setPriceFun eraseTime
  by_cases h : x.listing_id = row.listing_id
  · rw [if_pos h, if_pos h]
  · rw [if_neg h, if_neg h]

lemma ids_eraseTime (x : DBRow) : (eraseTime x).listing_id = x.listing_id := rfl

lemma ids_storeData (s : List DBRow) : storeIds (storeData s) = storeIds s := by
  unfold storeIds storeData
  rw [List.map_map]
  rfl

lemma storeData_setPrice (s : List DBRow) (row : DBRow) :
    storeData (setPrice s row) = setPrice (storeData s) (eraseTime row) := by
  unfold storeData setPrice
  rw [List.map_map, List.map_map]
  exact List.map_congr_left fun x _ => eraseTime_setPriceFun row x

lemma storeData_upsert (s : List DBRow) (row : DBRow) :
    storeData (upsert s row) = upsert (storeData s) (eraseTime row) := by
  unfold upsert
  rw [ids_storeData, ids_eraseTime]
  by_cases h : row.listing_id ∈ storeIds s
  · rw [if_pos h, if_pos h, storeData_setPrice]
  · rw [if_neg h, if_neg h]
    unfold storeData
    rw [List.map_append]
    rfl

lemma storeData_upsertRows :
    ∀ (rows : List DBRow) (s : List DBRow),
      storeData (upsertRows s rows) = upsertRows (storeData s) (rows.map eraseTime) := by
  intro rows
  induction rows with
  | nil => intro s; rfl
  | cons r rest ih =>
    intro s
    have h1 : upsertRows s (r :: rest) = upsertRows (upsert s r) rest := rfl
    rw [h1, ih, storeData_upsert]
    rfl

lemma eraseTime_toDBRow (r : Listing) (t : Nat) : eraseTime (toDBRow r t) = toDBRow r 0 := rfl

lemma map_eraseTime_toRows (t : Nat) (batch : List Listing) :
    (toRows t batch).map eraseTime = toRows 0 batch := by
  unfold toRows
  rw [List.map_map]
  rfl

lemma length_storeData (s : List DBRow) : (storeData s).length = s.length := by
  unfold storeData
  exact List.length_map s eraseTime


lemma length_goodRecords (fails : Listing → Bool) :
    ∀ batch : List Listing,
      (goodRecords fails batch).length + batch.countP (fun r => fails r) = batch.length := by
  intro batch
  induction batch with
  | nil => rfl
  | cons r rest ih =>
    by_cases h : fails r = true <;>
      simp [goodRecords, List.filter_cons, List.countP_cons, h] at ih ⊢ <;> omega

lemma goodRecords_all_good (batch : List Listing) :
    goodRecords (fun _ => false) batch = batch := by
  simp [goodRecords]

lemma zip_map_pair {α β : Type} (f : α → β) :
    ∀ (l : List α) (p : α × β), p ∈ l.zip (l.map f) → p.2 = f p.1 := by
  intro l
  induction l with
  | nil => intro p hp; simp at hp
  | cons a rest ih =>
    intro p hp
    rw [List.map_cons, List.zip_cons_cons] at hp
    rcases List.mem_cons.mp hp with rfl | hp
    · rfl
    · exact ih p hp

/-- C1: ingestion is idempotent.  Replaying a validated batch against the
store it already produced changes no data: the twelve data columns of every
row are unchanged (`storeData` forgets only the `updated_at` timestamp,
which the upsert refreshes by design), the row count is unchanged, no
duplicate identifiers appear, and if the second run writes the same
timestamp the store is literally identical. -/
theorem claim1_load_listings_idempotent (fails : Listing → Bool) (t₁ t₂ : Nat)
    (store : List DBRow) (batch : List Listing)
    (hnodup : (storeIds store).Nodup) :
    storeData (load_listings fails t₂ (load_listings fails t₁ store batch).store batch).store =
      storeData (load_listings fails t₁ store batch).store ∧
    (load_listings fails t₂ (load_listings fails t₁ store batch).store batch).store.length =
      (load_listings fails t₁ store batch).store.length ∧
    (storeIds (load_listings fails t₂ (load_listings fails t₁ store batch).store batch).store).Nodup ∧
    (t₂ = t₁ →
      (load_listings fails t₂ (load_listings fails t₁ store batch).store batch).store =
        (load_listings fails t₁ store batch).store) := by
  have hs : ∀ (t : Nat) (s : List DBRow),
      (load_listings fails t s batch).store =
        upsertRows s (toRows t (goodRecords fails batch)) := by
    intro t s; rw [load_listings_spec]
  have hdata : storeData (load_listings fails t₂ (load_listings fails t₁ store batch).store batch).store =
      storeData (load_listings fails t₁ store batch).store := by
    rw [hs, hs, storeData_upsertRows, map_eraseTime_toRows, storeData_upsertRows,
      map_eraseTime_toRows]
    exact upsertRows_idem _ _
  refine ⟨hdata, ?_, ?_, ?_⟩
  · have := congrArg List.length hdata
    rw [length_storeData, length_storeData] at this
    exact this
  · rw [hs, hs]
    exact nodup_ids_upsertRows _ _ (nodup_ids_upsertRows _ _ hnodup)
  · intro ht
    subst ht
    rw [hs, hs, upsertRows_idem]

/-- Witness for C1 at a concrete store and batch. -/
theorem claim1_witness :
    (storeIds ([] : List DBRow)).Nodup ∧
    (storeData (load_listings (fun _ => false) 2 (load_listings (fun _ => false) 1 []
        [⟨"a", none, some "FL", none, none, some 10, none, none, none, none, none, none⟩]).store
        [⟨"a", none, some "FL", none, none, some 10, none, none, none, none, none, none⟩]).store =
      storeData (load_listings (fun _ => false) 1 []
        [⟨"a", none, some "FL", none, none, some 10, none, none, none, none, none, none⟩]).store ∧
    (load_listings (fun _ => false) 2 (load_listings (fun _ => false) 1 []
        [⟨"a", none, some "FL", none, none, some 10, none, none, none, none, none, none⟩]).store
        [⟨"a", none, some "FL", none, none, some 10, none, none, none, none, none, none⟩]).store.length =
      (load_listings (fun _ => false) 1 []
        [⟨"a", none, some "FL", none, none, some 10, none, none, none, none, none, none⟩]).store.length ∧
    (storeIds (load_listings (fun _ => false) 2 (load_listings (fun _ => false) 1 []
        [⟨"a", none, some "FL", none, none, some 10, none, none, none, none, none, none⟩]).store
        [⟨"a", none, some "FL", none, none, some 10, none, none, none, none, none, none⟩]).store).Nodup ∧
    (2 = 1 →
      (load_listings (fun _ => false) 2 (load_listings (fun _ => false) 1 []
          [⟨"a", none, some "FL", none, none, some 10, none, none, none, none, none, none⟩]).store
          [⟨"a", none, some "FL", none, none, some 10, none, none, none, none, none, none⟩]).store =
        (load_listings (fun _ => false) 1 []
          [⟨"a", none, some "FL", none, none, some 10, none, none, none, none, none, none⟩]).store)) :=
  ⟨by decide, claim1_load_listings_idempotent (fun _ => false) 1 2 []
    [⟨"a", none, some "FL", none, none, some 10, none, none, none, none, none, none⟩] (by decide)⟩

/-- C2: per-record failure isolation.  If exactly one record of a batch
fails to write, the loader reports exactly one failure, loads the other
N - 1 records, and the store ends exactly as if the good records alone had
been loaded; the loader is a total function, so no exception escapes. -/
theorem claim2_failure_isolation (fails : Listing → Bool) (t : Nat) (store : List DBRow)
    (batch : List Listing) (h : batch.countP (fun r => fails r) = 1) :
    (load_listings fails t store batch).records_failed = 1 ∧
    (load_listings fails t store batch).records_loaded = batch.length - 1 ∧
    (load_listings fails t store batch).store =
      (load_listings (fun _ => false) t store (goodRecords fails batch)).store := by
  have hlen := length_goodRecords fails batch
  rw [load_listings_spec, load_listings_spec]
  refine ⟨h, ?_, ?_⟩
  · show (goodRecords fails batch).length = batch.length - 1
    omega
  · show upsertRows store (toRows t (goodRecords fails batch)) =
      upsertRows store (toRows t (goodRecords (fun _ => false) (goodRecords fails batch)))
    rw [goodRecords_all_good]

/-- Witness for C2: a three-record batch whose middle record fails. -/
theorem claim2_witness :
    ([⟨"a", none, some "FL", none, none, some 10, none, none, none, none, none, none⟩,
      ⟨"bad", none, some "FL", none, none, some 11, none, none, none, none, none, none⟩,
      ⟨"c", none, some "FL", none, none, some 12, none, none, none, none, none, none⟩] :
        List Listing).countP (fun r => decide (r.listing_id = "bad")) = 1 ∧
    ((load_listings (fun r => decide (r.listing_id = "bad")) 7 []
        [⟨"a", none, some "FL", none, none, some 10, none, none, none, none, none, none⟩,
         ⟨"bad", none, some "FL", none, none, some 11, none, none, none, none, none, none⟩,
         ⟨"c", none, some "FL", none, none, some 12, none, none, none, none, none, none⟩]).records_failed = 1 ∧
     (load_listings (fun r => decide (r.listing_id = "bad")) 7 []
        [⟨"a", none, some "FL", none, none, some 10, none, none, none, none, none, none⟩,
         ⟨"bad", none, some "FL", none, none, some 11, none, none, none, none, none, none⟩,
         ⟨"c", none, some "FL", none, none, some 12, none, none, none, none, none, none⟩]).records_loaded =
       ([⟨"a", none, some "FL", none, none, some 10, none, none, none, none, none, none⟩,
         ⟨"bad", none, some "FL", none, none, some 11, none, none, none, none, none, none⟩,
         ⟨"c", none, some "FL", none, none, some 12, none, none, none, none, none, none⟩] :
           List Listing).length - 1 ∧
     (load_listings (fun r => decide (r.listing_id = "bad")) 7 []
        [⟨"a", none, some "FL", none, none, some 10, none, none, none, none, none, none⟩,
         ⟨"bad", none, some "FL", none, none, some 11, none, none, none, none, none, none⟩,
         ⟨"c", none, some "FL", none, none, some 12, none, none, none, none, none, none⟩]).store =
       (load_listings (fun _ => false) 7 []
          (goodRecords (fun r => decide (r.listing_id = "bad"))
            [⟨"a", none, some "FL", none, none, some 10, none, none, none, none, none, none⟩,
             ⟨"bad", none, some "FL", none, none, some 11, none, none, none, none, none, none⟩,
             ⟨"c", none, some "FL", none, none, some 12, none, none, none, none, none, none⟩])).store) :=
  ⟨by decide, claim2_failure_isolation (fun r => decide (r.listing_id = "bad")) 7 []
    [⟨"a", none, some "FL", none, none, some 10, none, none, none, none, none, none⟩,
     ⟨"bad", none, some "FL", none, none, some 11, none, none, none, none, none, none⟩,
     ⟨"c", none, some "FL", none, none, some 12, none, none, none, none, none, none⟩] (by decide)⟩

/-- C6: upsert frame condition.  When the loader writes a record whose
identifier already exists, the store keeps its length, every row keeps its
identifier and its ten immutable data fields; only the matching row's
`price` and `updated_at` change, and rows with other identifiers are
entirely unchanged. -/
theorem claim6_upsert_frame (t : Nat) (store : List DBRow) (r : Listing)
    (h : r.listing_id ∈ storeIds store) :
    (load_listings (fun _ => false) t store [r]).store.length = store.length ∧
    ∀ p ∈ store.zip (load_listings (fun _ => false) t store [r]).store,
      p.2.listing_id = p.1.listing_id ∧ p.2.date = p.1.date ∧ p.2.region = p.1.region ∧
      p.2.city = p.1.city ∧ p.2.property_type = p.1.property_type ∧ p.2.tax = p.1.tax ∧
      p.2.sale_type = p.1.sale_type ∧ p.2.ownership = p.1.ownership ∧
      p.2.bedrooms = p.1.bedrooms ∧ p.2.bathrooms = p.1.bathrooms ∧ p.2.sqft = p.1.sqft ∧
      (p.1.listing_id = r.listing_id → p.2.price = r.price ∧ p.2.updated_at = t) ∧
      (p.1.listing_id ≠ r.listing_id → p.2 = p.1) := by
  have hstore : (load_listings (fun _ => false) t store [r]).store =
      store.map (setPriceFun (toDBRow r t)) := by
    rw [load_listings_spec]
    show upsertRows store (toRows t (goodRecords (fun _ => false) [r])) = _
    rw [goodRecords_all_good]
    show upsert store (toDBRow r t) = _
    unfold upsert
    rw [if_pos (show (toDBRow r t).listing_id ∈ storeIds store from h)]
    rfl
  rw [hstore]
  refine ⟨List.length_map store _, ?_⟩
  intro p hp
  have hps := zip_map_pair (setPriceFun (toDBRow r t)) store p hp
  by_cases hid : p.1.listing_id = r.listing_id
  · have hp2 : p.2 = { p.1 with price := r.price, updated_at := t } := by
      rw [hps]
      unfold setPriceFun
      rw [if_pos (show p.1.listing_id = (toDBRow r t).listing_id from hid)]
      rfl
    rw [hp2]
    exact ⟨rfl, rfl, rfl, rfl, rfl, rfl, rfl, rfl, rfl, rfl, rfl,
      fun _ => ⟨rfl, rfl⟩, fun hne => absurd hid hne⟩
  · have hp2 : p.2 = p.1 := by
      rw [hps]
      unfold setPriceFun
      rw [if_neg (show ¬p.1.listing_id = (toDBRow r t).listing_id from hid)]
    rw [hp2]
    exact ⟨rfl, rfl, rfl, rfl, rfl, rfl, rfl, rfl, rfl, rfl, rfl,
      fun heq => absurd heq hid, fun _ => rfl⟩

/-- Witness for C6: updating an existing row next to an unrelated row. -/
theorem claim6_witness :
    "a" ∈ storeIds
      [⟨"a", none, some "FL", none, none, some 10, none, none, none, none, none, none, 1⟩,
       ⟨"b", none, some "CA", none, none, some 20, none, none, none, none, none, none, 1⟩] ∧
    ((load_listings (fun _ => false) 9
        [⟨"a", none, some "FL", none, none, some 10, none, none, none, none, none, none, 1⟩,
         ⟨"b", none, some "CA", none, none, some 20, none, none, none, none, none, none, 1⟩]
        [⟨"a", none, some "NY", none, none, some 99, none, none, none, none, none, none⟩]).store.length =
      ([⟨"a", none, some "FL", none, none, some 10, none, none, none, none, none, none, 1⟩,
        ⟨"b", none, some "CA", none, none, some 20, none, none, none, none, none, none, 1⟩] :
          List DBRow).length ∧
     ∀ p ∈ ([⟨"a", none, some "FL", none, none, some 10, none, none, none, none, none, none, 1⟩,
             ⟨"b", none, some "CA", none, none, some 20, none, none, none, none, none, none, 1⟩] :
               List DBRow).zip
        (load_listings (fun _ => false) 9
          [⟨"a", none, some "FL", none, none, some 10, none, none, none, none, none, none, 1⟩,
           ⟨"b", none, some "CA", none, none, some 20, none, none, none, none, none, none, 1⟩]
          [⟨"a", none, some "NY", none, none, some 99, none, none, none, none, none, none⟩]).store,
        p.2.listing_id = p.1.listing_id ∧ p.2.date = p.1.date ∧ p.2.region = p.1.region ∧
        p.2.city = p.1.city ∧ p.2.property_type = p.1.property_type ∧ p.2.tax = p.1.tax ∧
        p.2.sale_type = p.1.sale_type ∧ p.2.ownership = p.1.ownership ∧
        p.2.bedrooms = p.1.bedrooms ∧ p.2.bathrooms = p.1.bathrooms ∧ p.2.sqft = p.1.sqft ∧
        (p.1.listing_id = "a" → p.2.price = some 99 ∧ p.2.updated_at = 9) ∧
        (p.1.listing_id ≠ "a" → p.2 = p.1)) :=
  ⟨by decide, claim6_upsert_frame 9
    [⟨"a", none, some "FL", none, none, some 10, none, none, none, none, none, none, 1⟩,
     ⟨"b", none, some "CA", none, none, some 20, none, none, none, none, none, none, 1⟩]
    ⟨"a", none, some "NY", none, none, some 99, none, none, none, none, none, none⟩ (by decide)⟩

/-- C10: loader accounting.  Every record is classified exactly once as
loaded or failed, so the two counters sum to the batch size, the loaded
count never exceeds the batch size, and an empty batch returns zero counts
and an untouched store. -/
theorem claim10_loader_accounting (fails : Listing → Bool) (t : Nat) (store : List DBRow)
    (batch : List Listing) :
    (load_listings fails t store batch).records_loaded +
        (load_listings fails t store batch).records_failed = batch.length ∧
    (load_listings fails t store batch).records_loaded ≤ batch.length ∧
    (batch = [] → load_listings fails t store batch = ⟨store, 0, 0⟩) := by
  have hlen := length_goodRecords fails batch
  rw [load_listings_spec]
  refine ⟨hlen, ?_, ?_⟩
  · show (goodRecords fails batch).length ≤ batch.length
    omega
  intro heq
  subst heq
  simp [goodRecords, toRows, upsertRows]

/-- Witness for C10 on a batch with one failing record. -/
theorem claim10_witness :
    (load_listings (fun r => decide (r.listing_id = "x")) 3
        [⟨"p", none, none, none, none, some 5, none, none, none, none, none, none, 0⟩]
        [⟨"x", none, some "FL", none, none, some 10, none, none, none, none, none, none⟩,
         ⟨"y", none, some "FL", none, none, some 11, none, none, none, none, none, none⟩]).records_loaded +
      (load_listings (fun r => decide (r.listing_id = "x")) 3
        [⟨"p", none, none, none, none, some 5, none, none, none, none, none, none, 0⟩]
        [⟨"x", none, some "FL", none, none, some 10, none, none, none, none, none, none⟩,
         ⟨"y", none, some "FL", none, none, some 11, none, none, none, none, none, none⟩]).records_failed =
      ([⟨"x", none, some "FL", none, none, some 10, none, none, none, none, none, none⟩,
        ⟨"y", none, some "FL", none, none, some 11, none, none, none, none, none, none⟩] :
          List Listing).length ∧
    (load_listings (fun r => decide (r.listing_id = "x")) 3
        [⟨"p", none, none, none, none, some 5, none, none, none, none, none, none, 0⟩]
        [⟨"x", none, some "FL", none, none, some 10, none, none, none, none, none, none⟩,
         ⟨"y", none, some "FL", none, none, some 11, none, none, none, none, none, none⟩]).records_loaded ≤
      ([⟨"x", none, some "FL", none, none, some 10, none, none, none, none, none, none⟩,
        ⟨"y", none, some "FL", none, none, some 11, none, none, none, none, none, none⟩] :
          List Listing).length ∧
    (([⟨"x", none, some "FL", none, none, some 10, none, none, none, none, none, none⟩,
       ⟨"y", none, some "FL", none, none, some 11, none, none, none, none, none, none⟩] :
         List Listing) = [] →
      load_listings (fun r => decide (r.listing_id = "x")) 3
        [⟨"p", none, none, none, none, some 5, none, none, none, none, none, none, 0⟩]
        [⟨"x", none, some "FL", none, none, some 10, none, none, none, none, none, none⟩,
         ⟨"y", none, some "FL", none, none, some 11, none, none, none, none, none, none⟩] =
        ⟨[⟨"p", none, none, none, none, some 5, none, none, none, none, none, none, 0⟩], 0, 0⟩) :=
  claim10_loader_accounting (fun r => decide (r.listing_id = "x")) 3
    [⟨"p", none, none, none, none, some 5, none, none, none, none, none, none, 0⟩]
    [⟨"x", none, some "FL", none, none, some 10, none, none, none, none, none, none⟩,
     ⟨"y", none, some "FL", none, none, some 11, none, none, none, none, none, none⟩]



/-! ### Validator lemmas and claim C4 -/

lemma validate_data_eq (l : List Listing) :
    validate_data l = (l.filter fun r => priceOK r.price).map soften := by
  unfold validate_data
  rw [List.map_map, List.map_map]
  rfl

lemma priceOK_iff (p : Option ℚ) :
    priceOK p = true ↔ ∃ v, p = some v ∧ 0 ≤ v ∧ v ≤ 100000000 := by
  cases p with
  | none => simp [priceOK]
  | some v =>
    simp only [priceOK, Bool.and_eq_true, decide_eq_true_iff]
    constructor
    · rintro ⟨h1, h2⟩
      exact ⟨v, rfl, h1, h2⟩
    · rintro ⟨w, hw, h1, h2⟩
      cases hw
      exact ⟨h1, h2⟩

/-- C4: validation boundary behaviour.  A record survives `validate_data`
exactly when its price is non-null and inside the inclusive range
`[0, 100000000]` (a null price compares false in pandas and the row is
dropped), and a surviving record is unchanged except that `sqft`,
`bedrooms` and `bathrooms` are nulled exactly when they lie outside
`[100, 50000]`, `[0, 20]` and `[0, 15]` respectively.  In particular
`price = 100000000` is kept, `price = 100000001` is dropped, and
`bedrooms = 21` is kept with `bedrooms` nulled. -/
theorem claim4_validation_boundary (l : List Listing) (x : Listing) :
    x ∈ validate_data l ↔
      ∃ r ∈ l,
        (∃ p, r.price = some p ∧ 0 ≤ p ∧ p ≤ 100000000) ∧
        x = { r with
          sqft :=
            match r.sqft with
            | none => none
            | some v => if v < 100 ∨ 50000 < v then none else some v
          bedrooms :=
            match r.bedrooms with
            | none => none
            | some v => if v < 0 ∨ 20 < v then none else some v
          bathrooms :=
            match r.bathrooms with
            | none => none
            | some v => if v < 0 ∨ 15 < v then none else some v } := by
  rw [validate_data_eq]
  simp only [List.mem_map, List.mem_filter]
  constructor
  · rintro ⟨r, ⟨hr, hpo⟩, rfl⟩
    exact ⟨r, hr, (priceOK_iff r.price).mp hpo, rfl⟩
  · rintro ⟨r, hr, hp, rfl⟩
    exact ⟨r, ⟨hr, (priceOK_iff r.price).mpr hp⟩, rfl⟩

/-- Witness for C4 at the claim's boundary inputs: price 100000000 is kept
with bedrooms 21 nulled, and a price of 100000001 admits no surviving
record. -/
theorem claim4_witness :
    (⟨"b", none, some "FL", none, none, some 100000000, none, none, none, none, some 3, none⟩ ∈
        validate_data
          [⟨"a", none, some "FL", none, none, some 100000001, none, none, none, none, none, none⟩,
           ⟨"b", none, some "FL", none, none, some 100000000, none, none, none, some 21, some 3, none⟩] ↔
      ∃ r ∈
          [⟨"a", none, some "FL", none, none, some 100000001, none, none, none, none, none, none⟩,
           ⟨"b", none, some "FL", none, none, some 100000000, none, none, none, some 21, some 3, none⟩],
        (∃ p, Listing.price r = some p ∧ 0 ≤ p ∧ p ≤ 100000000) ∧
        (⟨"b", none, some "FL", none, none, some 100000000, none, none, none, none, some 3, none⟩ : Listing) =
          { r with
            sqft :=
              match r.sqft with
              | none => none
              | some v => if v < 100 ∨ 50000 < v then none else some v
            bedrooms :=
              match r.bedrooms with
              | none => none
              | some v => if v < 0 ∨ 20 < v then none else some v
            bathrooms :=
              match r.bathrooms with
              | none => none
              | some v => if v < 0 ∨ 15 < v then none else some v }) :=
  claim4_validation_boundary
    [⟨"a", none, some "FL", none, none, some 100000001, none, none, none, none, none, none⟩,
     ⟨"b", none, some "FL", none, none, some 100000000, none, none, none, some 21, some 3, none⟩]
    ⟨"b", none, some "FL", none, none, some 100000000, none, none, none, none, some 3, none⟩


/-! ### Adapter lemmas -/

lemma mem_clean_zillow {dateCols : List String} {rows : List ZillowRow} {x : Listing}
    (hx : x ∈ clean_zillow_data dateCols rows) :
    ∃ r ∈ rows, ∃ (d : Date) (p : ℚ), x = zillowRecord r d p := by
  unfold clean_zillow_data at hx
  by_cases he : rows.isEmpty
  · rw [if_pos he] at hx
    simp at hx
  · rw [if_neg he] at hx
    cases hds : parseDates dateCols with
    | none => rw [hds] at hx; simp at hx
    | some ds =>
      rw [hds] at hx
      obtain ⟨j, _, hx⟩ := List.mem_flatMap.mp hx
      obtain ⟨r, hr, heq⟩ := List.mem_filterMap.mp hx
      cases hp : r.prices.getD j none with
      | none => rw [hp] at heq; cases heq
      | some p =>
        rw [hp] at heq
        cases heq
        exact ⟨r, hr, ds.getD j ⟨0, 0, 0⟩, p, rfl⟩

lemma dedupAux_subset :
    ∀ (l : List Listing) (seen : List String), ∀ x ∈ dedupAux l seen, x ∈ l := by
  intro l
  induction l with
  | nil => intro seen x hx; exact absurd hx (by simp [dedupAux])
  | cons r rest ih =>
    intro seen x hx
    unfold dedupAux at hx
    by_cases h : r.listing_id ∈ seen
    · rw [if_pos h] at hx
      exact List.mem_cons_of_mem r (ih seen x hx)
    · rw [if_neg h] at hx
      rcases List.mem_cons.mp hx with rfl | hx
      · exact List.mem_cons_self x rest
      · exact List.mem_cons_of_mem r (ih _ x hx)

lemma dedupAux_pairwise :
    ∀ (l : List Listing) (seen : List String),
      (dedupAux l seen).Pairwise (fun a b => a.listing_id ≠ b.listing_id) ∧
      ∀ x ∈ dedupAux l seen, x.listing_id ∉ seen := by
  intro l
  induction l with
  | nil => intro seen; constructor <;> simp [dedupAux]
  | cons r rest ih =>
    intro seen
    unfold dedupAux
    by_cases h : r.listing_id ∈ seen
    · rw [if_pos h]
      exact ih seen
    · rw [if_neg h]
      obtain ⟨hpw, hseen⟩ := ih (r.listing_id :: seen)
      refine ⟨List.pairwise_cons.mpr ⟨?_, hpw⟩, ?_⟩
      · intro b hb hid
        exact hseen b hb (hid ▸ List.mem_cons_self _ _)
      · intro x hx
        rcases List.mem_cons.mp hx with rfl | hx
        · exact h
        · exact fun hc => hseen x hx (List.mem_cons_of_mem _ hc)

lemma dedupById_pairwise (l : List Listing) :
    (dedupById l).Pairwise (fun a b => a.listing_id ≠ b.listing_id) :=
  (dedupAux_pairwise l []).1

lemma mem_clean_redfin {hasCol : Bool} {rows : List RedfinRow} {x : Listing}
    (hx : x ∈ clean_redfin_data hasCol rows) :
    ∃ r ∈ rows, ∃ d : Option Date, x = redfinRecord hasCol r d := by
  unfold clean_redfin_data at hx
  by_cases he : rows.isEmpty
  · rw [if_pos he] at hx
    simp at hx
  · rw [if_neg he] at hx
    cases hds : parsePeriods (rows.map (·.period_end)) with
    | none => rw [hds] at hx; simp at hx
    | some ds =>
      rw [hds] at hx
      have hx2 := dedupAux_subset _ [] x hx
      obtain ⟨rd, hrd, heq⟩ := List.mem_map.mp hx2
      exact ⟨rd.1, (List.of_mem_zip hrd).1, rd.2, heq.symm⟩

lemma clean_redfin_singleton (hasCol : Bool) (r : RedfinRow) :
    clean_redfin_data hasCol [r] =
      match parsePeriodCell r.period_end with
      | none => []
      | some d => [redfinRecord hasCol r d] := by
  unfold clean_redfin_data
  rw [if_neg (by simp)]
  cases hc : parsePeriodCell r.period_end with
  | none =>
    have : parsePeriods [r.period_end] = none := by
      unfold parsePeriods
      rw [hc]
    rw [show ([r].map (·.period_end)) = [r.period_end] from rfl, this]
  | some d =>
    have : parsePeriods [r.period_end] = some [d] := by
      unfold parsePeriods
      rw [hc]
      rfl
    rw [show ([r].map (·.period_end)) = [r.period_end] from rfl, this]
    rfl

lemma ids_clean_zillow (dateCols : List String) (rows : List ZillowRow) :
    (clean_zillow_data dateCols rows).map (·.listing_id) =
      (zillowIdStrings dateCols rows).map hexdigest16 := by
  unfold clean_zillow_data zillowIdStrings
  by_cases he : rows.isEmpty
  · rw [if_pos he, if_pos he]
    rfl
  · rw [if_neg he, if_neg he]
    cases hds : parseDates dateCols with
    | none => rfl
    | some ds =>
      rw [List.map_flatMap, List.map_flatMap]
      congr 1
      funext j
      rw [List.map_filterMap, List.map_filterMap]
      congr 1
      funext r
      cases r.prices.getD j none <;> rfl

/-! ### Digest shape lemmas and truncated-hash collisions -/

lemma length_md5DigestBytes (s : String) : (md5DigestBytes s).length = 16 := by
  simp [md5DigestBytes, wordLEBytes]

lemma mem_md5DigestBytes_lt (s : String) : ∀ b ∈ md5DigestBytes s, b < 256 := by
  intro b hb
  have h255 : ∀ y : Nat, y &&& 255 < 256 := fun y =>
    Nat.lt_succ_of_le (Nat.and_le_right)
  have hw : ∀ (w c : Nat), c ∈ wordLEBytes w → c < 256 := by
    intro w c hcw
    simp only [wordLEBytes, List.mem_cons, List.not_mem_nil, or_false] at hcw
    rcases hcw with rfl | rfl | rfl | rfl <;> exact h255 _
  simp only [md5DigestBytes] at hb
  rcases List.mem_append.mp hb with hb | hb
  · rcases List.mem_append.mp hb with hb | hb
    · rcases List.mem_append.mp hb with hb | hb
      · exact hw _ _ hb
      · exact hw _ _ hb
    · exact hw _ _ hb
  · exact hw _ _ hb

lemma take_flatten_byteHex :
    ∀ (l : List Nat) (k : Nat),
      ((l.map byteHex).flatten.take (2 * k)) = ((l.take k).map byteHex).flatten := by
  intro l
  induction l with
  | nil => intro k; simp
  | cons b rest ih =>
    intro k
    cases k with
    | zero => simp
    | succ k =>
      have h2 : 2 * (k + 1) = (2 * k) + 1 + 1 := by omega
      simp only [List.map_cons, List.flatten_cons, byteHex, List.take_succ_cons,
        List.cons_append, List.nil_append, h2]
      rw [ih k]

/-- Base-256 packing of a byte list. -/
def packNat (l : List Nat) : Nat := l.foldr (fun b acc => b + 256 * acc) 0

lemma packNat_lt : ∀ l : List Nat, (∀ b ∈ l, b < 256) → packNat l < 256 ^ l.length := by
  intro l
  induction l with
  | nil => intro _; simp [packNat]
  | cons b rest ih =>
    intro h
    have hb : b < 256 := h b (List.mem_cons_self b rest)
    have hr : packNat rest < 256 ^ rest.length :=
      ih fun c hc => h c (List.mem_cons_of_mem b hc)
    show b + 256 * packNat rest < 256 ^ (rest.length + 1)
    have : 256 ^ (rest.length + 1) = 256 * 256 ^ rest.length := by ring
    rw [this]
    omega

lemma packNat_inj :
    ∀ (l₁ l₂ : List Nat), l₁.length = l₂.length →
      (∀ b ∈ l₁, b < 256) → (∀ b ∈ l₂, b < 256) →
      packNat l₁ = packNat l₂ → l₁ = l₂ := by
  intro l₁
  induction l₁ with
  | nil =>
    intro l₂ hlen _ _ _
    cases l₂ with
    | nil => rfl
    | cons c rest => simp at hlen
  | cons b rest ih =>
    intro l₂ hlen hb₁ hb₂ hpack
    cases l₂ with
    | nil => simp at hlen
    | cons c rest₂ =>
      have hb : b < 256 := hb₁ b (List.mem_cons_self b rest)
      have hc : c < 256 := hb₂ c (List.mem_cons_self c rest₂)
      have hp : b + 256 * packNat rest = c + 256 * packNat rest₂ := hpack
      have hbc : b = c := by omega
      have hrest : packNat rest = packNat rest₂ := by omega
      have hlen2 : rest.length = rest₂.length := by
        simpa using hlen
      rw [hbc, ih rest₂ hlen2 (fun x hx => hb₁ x (List.mem_cons_of_mem b hx))
        (fun x hx => hb₂ x (List.mem_cons_of_mem c hx)) hrest]

/-- The value of the first eight digest bytes, i.e. of the truncated
16-hex-character identifier. -/
def idNat (s : String) : Nat := packNat ((md5DigestBytes s).take 8)

lemma length_take8_digest (s : String) : ((md5DigestBytes s).take 8).length = 8 := by
  rw [List.length_take, length_md5DigestBytes]
  decide

lemma idNat_lt (s : String) : idNat s < 256 ^ 8 := by
  have h := packNat_lt ((md5DigestBytes s).take 8)
    (fun b hb => mem_md5DigestBytes_lt s b (List.mem_of_mem_take hb))
  rw [length_take8_digest] at h
  exact h

lemma hexdigest16_eq_of_idNat_eq {s₁ s₂ : String} (h : idNat s₁ = idNat s₂) :
    hexdigest16 s₁ = hexdigest16 s₂ := by
  have htake : (md5DigestBytes s₁).take 8 = (md5DigestBytes s₂).take 8 :=
    packNat_inj _ _ (by rw [length_take8_digest, length_take8_digest])
      (fun b hb => mem_md5DigestBytes_lt s₁ b (List.mem_of_mem_take hb))
      (fun b hb => mem_md5DigestBytes_lt s₂ b (List.mem_of_mem_take hb)) h
  unfold hexdigest16 md5hexChars
  rw [show (16 : Nat) = 2 * 8 from rfl, take_flatten_byteHex, take_flatten_byteHex, htake]

lemma infinite_string : Infinite String := by
  apply Infinite.of_injective (fun n : ℕ => String.mk (List.replicate n 'a'))
  intro a b h
  have := congrArg (fun s : String => s.data.length) h
  simpa using this

set_option maxHeartbeats 2000000 in
/-- Distinct natural keys with colliding truncated hashes exist: the hash
input space is infinite while the 16-hex-character identifier space is
finite, so the wide-format identity assignment cannot be injective in the
natural key. -/
lemma zillow_id_collision (d : Date) :
    ∃ k₁ k₂ : String, k₁ ≠ k₂ ∧ zillowListingId k₁ d = zillowListingId k₂ d := by
  haveI := infinite_string
  obtain ⟨k₁, k₂, hne, heq⟩ := Finite.exists_ne_map_eq_of_infinite
    (fun k : String => (⟨idNat (zillowIdString k d), idNat_lt _⟩ : Fin (256 ^ 8)))
  refine ⟨k₁, k₂, hne, ?_⟩
  have : idNat (zillowIdString k₁ d) = idNat (zillowIdString k₂ d) := congrArg Fin.val heq
  exact hexdigest16_eq_of_idNat_eq this


lemma length_md5hexChars (s : String) : (md5hexChars s).length = 32 := by
  unfold md5hexChars
  have h2 : ∀ l : List Nat, ((l.map byteHex).flatten).length = 2 * l.length := by
    intro l
    induction l with
    | nil => rfl
    | cons b rest ih =>
      simp only [List.map_cons, List.flatten_cons, List.length_append, ih, byteHex,
        List.length_cons, List.length_nil, List.length_map]
      omega
  rw [h2, length_md5DigestBytes]

lemma length_hexdigest16 (s : String) : (hexdigest16 s).length = 16 := by
  show ((md5hexChars s).take 16).length = 16
  rw [List.length_take, length_md5hexChars]
  decide

lemma mem_validate_data {l : List Listing} {x : Listing} (hx : x ∈ validate_data l) :
    ∃ r ∈ l, priceOK r.price = true ∧ x = soften r := by
  rw [validate_data_eq] at hx
  obtain ⟨r, hr, rfl⟩ := List.mem_map.mp hx
  exact ⟨r, (List.mem_filter.mp hr).1, (List.mem_filter.mp hr).2, rfl⟩

/-! ### Claim C3: identity determinism -/

/-- C3 counterexample: the clause "changing the natural key changes the
identifier" is false for the truncated MD5 identifier: there exist two
distinct natural keys whose identifiers coincide for the same period,
because infinitely many hash inputs map into the finite space of
16-hex-character digests. -/
theorem claim3_counterexample :
    ¬ ∀ (k₁ k₂ : String) (d : Date), k₁ ≠ k₂ →
        zillowListingId k₁ d ≠ zillowListingId k₂ d := by
  intro H
  obtain ⟨k₁, k₂, hne, heq⟩ := zillow_id_collision ⟨2020, 1, 31⟩
  exact H k₁ k₂ ⟨2020, 1, 31⟩ hne heq

/-- C3 (amended): identifier assignment is deterministic and depends only
on the source kind, the natural key and the period.  For both adapters,
any two emitted records agreeing on natural key and period carry the same
identifier, whatever their other fields (price, names, state, category)
are; in particular re-running on the same input reproduces identifiers.
(The converse — distinct keys yielding distinct identifiers — cannot hold,
see the counterexample.) -/
theorem claim3_identity_determinism :
    (∀ (dateCols : List String) (r₁ r₂ : ZillowRow), r₁.regionID = r₂.regionID →
      ∀ x₁ ∈ clean_zillow_data dateCols [r₁], ∀ x₂ ∈ clean_zillow_data dateCols [r₂],
        x₁.date = x₂.date → x₁.listing_id = x₂.listing_id) ∧
    (∀ (hasCol₁ hasCol₂ : Bool) (r₁ r₂ : RedfinRow),
      r₁.region = r₂.region → r₁.period_end = r₂.period_end →
      ∀ x₁ ∈ clean_redfin_data hasCol₁ [r₁], ∀ x₂ ∈ clean_redfin_data hasCol₂ [r₂],
        x₁.listing_id = x₂.listing_id) := by
  constructor
  · intro dateCols r₁ r₂ hreg x₁ hx₁ x₂ hx₂ hdate
    obtain ⟨r₁', hr₁, d₁, p₁, rfl⟩ := mem_clean_zillow hx₁
    obtain ⟨r₂', hr₂, d₂, p₂, rfl⟩ := mem_clean_zillow hx₂
    have e₁ : r₁' = r₁ := List.mem_singleton.mp hr₁
    have e₂ : r₂' = r₂ := List.mem_singleton.mp hr₂
    have hd : d₁ = d₂ := by
      have h : some d₁ = some d₂ := hdate
      exact Option.some.inj h
    have hk : r₁'.regionID = r₂'.regionID := by rw [e₁, e₂, hreg]
    show zillowListingId r₁'.regionID d₁ = zillowListingId r₂'.regionID d₂
    rw [hk, hd]
  · intro hasCol₁ hasCol₂ r₁ r₂ hreg hper x₁ hx₁ x₂ hx₂
    rw [clean_redfin_singleton] at hx₁ hx₂
    cases hc : parsePeriodCell r₁.period_end with
    | none =>
      rw [hc] at hx₁
      cases hx₁
    | some d =>
      rw [hc] at hx₁
      rw [hper] at hc
      rw [hc] at hx₂
      have e₁ : x₁ = redfinRecord hasCol₁ r₁ d := List.mem_singleton.mp hx₁
      have e₂ : x₂ = redfinRecord hasCol₂ r₂ d := List.mem_singleton.mp hx₂
      rw [e₁, e₂]
      show redfinListingId (optCellStr r₁.region) d = redfinListingId (optCellStr r₂.region) d
      rw [hreg]

set_option maxRecDepth 200000 in
/-- Witness for C3: records differing in price, names, state and category
but agreeing on natural key and period get the same identifier. -/
theorem claim3_witness :
    (zillowRecord ⟨"42", some "Miami", some "FL", [some 100]⟩ ⟨2020, 1, 31⟩ 100).listing_id =
      (zillowRecord ⟨"42", some "Tampa", some "GA", [some 999]⟩ ⟨2020, 1, 31⟩ 999).listing_id ∧
    (redfinRecord true ⟨some "2020-01-31", some "Miami", some "FL", some "Townhouse", some 1⟩
        (some ⟨2020, 1, 31⟩)).listing_id =
      (redfinRecord false ⟨some "2020-01-31", some "Miami", none, none, some 2⟩
        (some ⟨2020, 1, 31⟩)).listing_id :=
  ⟨claim3_identity_determinism.1 ["2020-01-31"]
      ⟨"42", some "Miami", some "FL", [some 100]⟩ ⟨"42", some "Tampa", some "GA", [some 999]⟩ rfl
      _ (by decide) _ (by decide) rfl,
   claim3_identity_determinism.2 true false
      ⟨some "2020-01-31", some "Miami", some "FL", some "Townhouse", some 1⟩
      ⟨some "2020-01-31", some "Miami", none, none, some 2⟩ rfl rfl
      _ (by decide) _ (by decide)⟩

/-! ### Claim C5: category normalization -/

set_option maxRecDepth 200000 in
/-- C5 counterexample: a source label outside the adapter's mapping does
not fall back to `other`; it passes through lowercased, leaving a category
outside the controlled vocabulary. -/
theorem claim5_counterexample :
    ∃ r ∈ clean_redfin_data true
        [⟨some "2020-01-31", some "Miami", some "FL", some "Multi-Family (2-4 Unit)", some 100⟩],
      r.property_type = some "multi-family (2-4 unit)" ∧
      r.property_type ≠ some "other" ∧
      ∀ v ∈ controlledVocabulary, r.property_type ≠ some v := by decide

/-- C5 (amended): the mapped labels behave as specified — `condo/co-op`
maps to `condo`, the wide-format adapter emits the constant `condo`, and a
missing property-type column yields the constant `other` — but a label
outside the mapping passes through lowercased rather than falling back to
`other`, so the emitted category is not confined to the controlled
vocabulary. -/
theorem claim5_category_normalization :
    (∀ s : String, strLower s = "condo/co-op" → normCategory (some s) = some "condo") ∧
    (∀ (dateCols : List String) (rows : List ZillowRow),
      ∀ r ∈ clean_zillow_data dateCols rows, r.property_type = some "condo") ∧
    (∀ rows : List RedfinRow, ∀ r ∈ clean_redfin_data false rows,
      r.property_type = some "other") ∧
    (∀ rows : List RedfinRow, ∀ r ∈ clean_redfin_data true rows,
      ∃ r₀ ∈ rows, r.property_type = normCategory r₀.property_type) ∧
    (∀ s : String, strLower s ≠ "single family residential" →
      strLower s ≠ "condo/co-op" → strLower s ≠ "townhouse" →
      normCategory (some s) = some (strLower s)) := by
  refine ⟨?_, ?_, ?_, ?_, ?_⟩
  · intro s hs
    simp only [normCategory]
    rw [hs]
    decide
  · intro dateCols rows r hr
    obtain ⟨r₀, _, d, p, rfl⟩ := mem_clean_zillow hr
    rfl
  · intro rows r hr
    obtain ⟨r₀, _, d, rfl⟩ := mem_clean_redfin hr
    rfl
  · intro rows r hr
    obtain ⟨r₀, hr₀, d, rfl⟩ := mem_clean_redfin hr
    exact ⟨r₀, hr₀, rfl⟩
  · intro s h1 h2 h3
    simp only [normCategory]
    rw [if_neg h1, if_neg h2, if_neg h3]

/-- Witness for C5: the mapped label and an unmapped label. -/
theorem claim5_witness :
    normCategory (some "Condo/Co-op") = some "condo" ∧
    normCategory (some "Loft Space") = some (strLower "Loft Space") :=
  ⟨claim5_category_normalization.1 "Condo/Co-op" (by decide),
   claim5_category_normalization.2.2.2.2 "Loft Space" (by decide) (by decide) (by decide)⟩

/-! ### Claim C7: identifier uniqueness within a batch -/

/-- C7 counterexample: the wide-format adapter does not deduplicate, so a
batch containing two entities whose natural keys collide under the
truncated hash (such keys exist by counting) yields two records with equal
identifiers. -/
theorem claim7_counterexample :
    ¬ ∀ (dateCols : List String) (rows : List ZillowRow),
        (clean_zillow_data dateCols rows).Pairwise
          (fun a b => a.listing_id ≠ b.listing_id) := by
  intro H
  obtain ⟨k₁, k₂, hne, heq⟩ := zillow_id_collision ⟨2020, 1, 31⟩
  have hds : parseDates ["2020-01-31"] = some [⟨2020, 1, 31⟩] := by decide
  have hclean : clean_zillow_data ["2020-01-31"]
      [⟨k₁, none, none, [some 1]⟩, ⟨k₂, none, none, [some 1]⟩] =
      [zillowRecord ⟨k₁, none, none, [some 1]⟩ ⟨2020, 1, 31⟩ 1,
       zillowRecord ⟨k₂, none, none, [some 1]⟩ ⟨2020, 1, 31⟩ 1] := by
    unfold clean_zillow_data
    rw [if_neg (by simp), hds]
    rfl
  have hpw := H ["2020-01-31"] [⟨k₁, none, none, [some 1]⟩, ⟨k₂, none, none, [some 1]⟩]
  rw [hclean] at hpw
  exact (List.pairwise_cons.mp hpw).1 _ (List.mem_singleton.mpr rfl) heq

/-- C7 (amended): the tabular (Redfin) adapter deduplicates by identifier,
so its output identifiers are always pairwise distinct; the wide-format
(Zillow) adapter emits pairwise-distinct identifiers exactly on batches
where the truncated hashes of its identity inputs do not collide (the
counterexample shows collisions defeat uniqueness). -/
theorem claim7_batch_id_uniqueness :
    (∀ (hasCol : Bool) (rows : List RedfinRow),
      (clean_redfin_data hasCol rows).Pairwise (fun a b => a.listing_id ≠ b.listing_id)) ∧
    (∀ (dateCols : List String) (rows : List ZillowRow),
      ((zillowIdStrings dateCols rows).map hexdigest16).Nodup →
      ((clean_zillow_data dateCols rows).map (·.listing_id)).Nodup) := by
  constructor
  · intro hasCol rows
    unfold clean_redfin_data
    by_cases he : rows.isEmpty
    · rw [if_pos he]
      exact List.Pairwise.nil
    · rw [if_neg he]
      cases parsePeriods (rows.map (·.period_end)) with
      | none => exact List.Pairwise.nil
      | some ds => exact dedupById_pairwise _
  · intro dateCols rows h
    rw [ids_clean_zillow]
    exact h

set_option maxRecDepth 200000 in
/-- Witness for C7 on concrete batches of both source kinds. -/
theorem claim7_witness :
    (clean_redfin_data true
        [⟨some "2020-01-31", some "Miami", some "FL", some "Townhouse", some 1⟩,
         ⟨some "2020-02-29", some "Miami", some "FL", some "Condo/Co-op", some 2⟩]).Pairwise
      (fun a b => a.listing_id ≠ b.listing_id) ∧
    ((clean_zillow_data ["2020-01-31", "2020-02-29"]
        [⟨"42", some "Miami", some "FL", [some 1, some 2]⟩]).map (·.listing_id)).Nodup :=
  ⟨claim7_batch_id_uniqueness.1 true
      [⟨some "2020-01-31", some "Miami", some "FL", some "Townhouse", some 1⟩,
       ⟨some "2020-02-29", some "Miami", some "FL", some "Condo/Co-op", some 2⟩],
   claim7_batch_id_uniqueness.2 ["2020-01-31", "2020-02-29"]
      [⟨"42", some "Miami", some "FL", [some 1, some 2]⟩] (by decide)⟩

/-! ### Claim C8: non-null fields at the persistence step -/

set_option maxRecDepth 200000 in
/-- C8 counterexample: a tabular-source row with a null state code survives
cleaning and validation, so a record with a null `region` reaches the
loader. -/
theorem claim8_counterexample :
    ∃ r ∈ validate_data (clean_redfin_data true
        [⟨some "2020-01-31", some "Miami", none, some "Townhouse", some 300000⟩]),
      r.region = none := by decide

/-- C8 (amended): every record reaching the loader has a non-null price
(the validator drops null prices) and a total 16-character identifier; the
wide-format pipeline additionally guarantees a non-null period.  `region`
(and, for the tabular source, `period`) can be null — see the
counterexample. -/
theorem claim8_non_null_fields :
    (∀ (hasCol : Bool) (rows : List RedfinRow) (x : Listing),
      x ∈ validate_data (clean_redfin_data hasCol rows) →
        (∃ p : ℚ, x.price = some p) ∧ x.listing_id.length = 16) ∧
    (∀ (dateCols : List String) (rows : List ZillowRow) (x : Listing),
      x ∈ validate_data (clean_zillow_data dateCols rows) →
        (∃ p : ℚ, x.price = some p) ∧ (∃ d : Date, x.date = some d) ∧
        x.listing_id.length = 16) := by
  constructor
  · intro hasCol rows x hx
    obtain ⟨r, hr, hpo, rfl⟩ := mem_validate_data hx
    obtain ⟨r₀, hr₀, d, rfl⟩ := mem_clean_redfin hr
    obtain ⟨v, hv, _, _⟩ := (priceOK_iff _).mp hpo
    exact ⟨⟨v, hv⟩, length_hexdigest16 _⟩
  · intro dateCols rows x hx
    obtain ⟨r, hr, hpo, rfl⟩ := mem_validate_data hx
    obtain ⟨r₀, hr₀, d, p, rfl⟩ := mem_clean_zillow hr
    exact ⟨⟨p, rfl⟩, ⟨d, rfl⟩, length_hexdigest16 _⟩

set_option maxRecDepth 200000 in
/-- Witness for C8 at a concrete tabular-source batch. -/
theorem claim8_witness :
    (∃ p : ℚ, (soften (redfinRecord true
        ⟨some "2020-01-31", some "Miami", none, some "Townhouse", some 300000⟩
        (some ⟨2020, 1, 31⟩))).price = some p) ∧
    (soften (redfinRecord true
        ⟨some "2020-01-31", some "Miami", none, some "Townhouse", some 300000⟩
        (some ⟨2020, 1, 31⟩))).listing_id.length = 16 :=
  claim8_non_null_fields.1 true
    [⟨some "2020-01-31", some "Miami", none, some "Townhouse", some 300000⟩]
    (soften (redfinRecord true
      ⟨some "2020-01-31", some "Miami", none, some "Townhouse", some 300000⟩
      (some ⟨2020, 1, 31⟩)))
    (by decide)

/-! ### Claim C9: wide-to-long reshape -/

set_option maxRecDepth 200000 in
/-- C9 counterexample: one entity row with three date columns does not
always yield exactly three records — a null price cell is dropped by the
melt, leaving two. -/
theorem claim9_counterexample :
    (clean_zillow_data ["2020-01-31", "2020-02-29", "2020-03-31"]
        [⟨"42", some "Miami", some "FL", [some 100, none, some 200]⟩]).length = 2 ∧
    (clean_zillow_data ["2020-01-31", "2020-02-29", "2020-03-31"]
        [⟨"42", some "Miami", some "FL", [some 100, none, some 200]⟩]).length ≠ 3 := by
  constructor <;> decide

/-- C9 (amended): for one entity row with three date columns whose names
parse to three pairwise-distinct dates and whose three price cells are
non-null, the wide-format adapter emits exactly three canonical records,
each keeping the row's natural key and region and carrying its own
column's period and price, with pairwise-distinct periods. -/
theorem claim9_wide_to_long (c₁ c₂ c₃ : String) (d₁ d₂ d₃ : Date) (row : ZillowRow)
    (p₁ p₂ p₃ : ℚ)
    (h₁ : parseDate c₁ = some d₁) (h₂ : parseDate c₂ = some d₂) (h₃ : parseDate c₃ = some d₃)
    (hp : row.prices = [some p₁, some p₂, some p₃])
    (h12 : d₁ ≠ d₂) (h13 : d₁ ≠ d₃) (h23 : d₂ ≠ d₃) :
    clean_zillow_data [c₁, c₂, c₃] [row] =
      [zillowRecord row d₁ p₁, zillowRecord row d₂ p₂, zillowRecord row d₃ p₃] ∧
    ((clean_zillow_data [c₁, c₂, c₃] [row]).map (·.date)).Nodup := by
  have hds : parseDates [c₁, c₂, c₃] = some [d₁, d₂, d₃] := by
    simp [parseDates, h₁, h₂, h₃]
  have hmain : clean_zillow_data [c₁, c₂, c₃] [row] =
      [zillowRecord row d₁ p₁, zillowRecord row d₂ p₂, zillowRecord row d₃ p₃] := by
    unfold clean_zillow_data
    rw [if_neg (by simp), hds]
    show (List.range 3).flatMap _ = _
    rw [show List.range 3 = [0, 1, 2] from by decide]
    simp only [List.flatMap_cons, List.flatMap_nil, List.filterMap_cons, List.filterMap_nil, hp]
    rfl
  refine ⟨hmain, ?_⟩
  rw [hmain]
  simp only [List.map_cons, List.map_nil, zillowRecord]
  simp [List.nodup_cons, h12, h13, h23]

/-- Witness for C9 at three concrete month-end columns. -/
theorem claim9_witness :
    clean_zillow_data ["2020-01-31", "2020-02-29", "2020-03-31"]
        [⟨"42", some "Miami", some "FL", [some 100, some 150, some 200]⟩] =
      [zillowRecord ⟨"42", some "Miami", some "FL", [some 100, some 150, some 200]⟩ ⟨2020, 1, 31⟩ 100,
       zillowRecord ⟨"42", some "Miami", some "FL", [some 100, some 150, some 200]⟩ ⟨2020, 2, 29⟩ 150,
       zillowRecord ⟨"42", some "Miami", some "FL", [some 100, some 150, some 200]⟩ ⟨2020, 3, 31⟩ 200] ∧
    ((clean_zillow_data ["2020-01-31", "2020-02-29", "2020-03-31"]
        [⟨"42", some "Miami", some "FL", [some 100, some 150, some 200]⟩]).map (·.date)).Nodup :=
  claim9_wide_to_long "2020-01-31" "2020-02-29" "2020-03-31" ⟨2020, 1, 31⟩ ⟨2020, 2, 29⟩
    ⟨2020, 3, 31⟩ ⟨"42", some "Miami", some "FL", [some 100, some 150, some 200]⟩ 100 150 200
    (by decide) (by decide) (by decide) rfl (by decide) (by decide) (by decide)

end RealEstate
